import Mathlib

/-
Verification of the data-agent pipeline (src/app.py) against its
natural-language specification.

Program text is modelled as `List Char`; Python string indices become `Nat`
indices into the list.  Python's regular-expression operations are modelled
only at the fixed patterns the program uses, with their leftmost / greedy /
non-overlapping semantics spelled out where each model is defined.  External
effects (the generative-model gateway, the subprocess executor, the DuckDB
engine, the web scraper) are modelled as explicit oracles passed in as
function arguments; everything the program computes from their answers is
translated from the source.
-/

namespace DataAgent

/-! ## Basic string utilities (Python `str` operations on `List Char`) -/

/-- Python whitespace characters relevant to `str.strip` / `str.lstrip`
(ASCII subset; the program only ever strips ASCII text). -/
def isWs (c : Char) : Bool :=
  c == ' ' || c == '\t' || c == '\n' || c == '\r' || c == '\x0b' || c == '\x0c'

/-- Python `s.lstrip()`. -/
def lstrip (s : List Char) : List Char := s.dropWhile isWs

/-- Python `s.rstrip()`. -/
def rstrip (s : List Char) : List Char := (s.reverse.dropWhile isWs).reverse

/-- Python `s.strip()`. -/
def strip (s : List Char) : List Char := rstrip (lstrip s)

/-- Python substring test `needle in hay`. -/
def containsSub : List Char → List Char → Bool
  | n, [] => n.isEmpty
  | n, h :: t => n.isPrefixOf (h :: t) || containsSub n t

/-- Python `hay.find(needle)` restricted to a found/not-found answer:
index of the leftmost occurrence, `none` when absent (Python returns -1). -/
def findSub? (n : List Char) : List Char → Option Nat
  | [] => if n.isEmpty then some 0 else none
  | h :: t => if n.isPrefixOf (h :: t) then some 0 else (findSub? n t).map (· + 1)

/-- Python `s.find(c, start)`: leftmost index `≥ start` holding `c`
(`none` when absent; Python clamps `start` past the end and returns -1). -/
def findCharFrom (c : Char) (s : List Char) (start : Nat) : Option Nat :=
  ((s.drop start).findIdx? (fun x => x == c)).map (· + start)

/-- Python `s.rfind(c, 0, stop)`: rightmost index `< stop` holding `c`
(`none` when absent; Python clamps `stop` past the end). -/
def rfindCharBefore (c : Char) (s : List Char) (stop : Nat) : Option Nat :=
  let t := s.take stop
  (t.reverse.findIdx? (fun x => x == c)).map (fun i => t.length - 1 - i)

/-- Python slice `s[a:b]` for `0 ≤ a ≤ b` (indices past the end clamp). -/
def slice (s : List Char) (a b : Nat) : List Char := (s.drop a).take (b - a)

/-- Python `s.lower()` (per-character; the data here is ASCII). -/
def toLowerL (s : List Char) : List Char := s.map Char.toLower

/-- Python `s.replace(pat, "")` for a non-empty `pat`: removes every
non-overlapping occurrence, scanning left to right. -/
def replaceAll : List Char → List Char → List Char
  | _, [] => []
  | [], s => s
  | p :: ps, c :: rest =>
    if (p :: ps).isPrefixOf (c :: rest) then replaceAll (p :: ps) (rest.drop ps.length)
    else c :: replaceAll (p :: ps) rest
termination_by _ s => s.length
decreasing_by
  · simp only [List.length_drop, List.length_cons]; omega
  · simp only [List.length_cons]; omega

/-- `os.path.basename` on POSIX: the part after the last `/`. -/
def basename (p : List Char) : List Char :=
  match rfindCharBefore '/' p p.length with
  | some i => p.drop (i + 1)
  | none => p

/-! ## OutputValidator: `extract_json_from_output` (src/app.py lines 161-182)

The source scans stdout with `re.findall(r'\{.*\}', out, re.DOTALL)` and, if
that is empty, `re.findall(r'\[.*\]', out, re.DOTALL)`, then takes the longest
match.  For the pattern `c.*d` with DOTALL and a greedy `.*`, `re.findall`
produces at most one match: the leftmost possible start is the first `c`
followed by some later `d`, the greedy `.*` extends to the last `d` of the
whole string, and no `d` remains after that match, so scanning stops.
`spanFrom` computes exactly that single span. -/

/-- `true` iff some occurrence of `c` has an occurrence of `d` strictly
after it, i.e. the string has a substring starting with `c` and ending
with `d`. -/
def hasSpanB (c d : Char) : List Char → Bool
  | [] => false
  | x :: xs => (x == c && xs.contains d) || hasSpanB c d xs

/-- Keep characters up to and including the last occurrence of `d`
(the empty list when `d` is absent). -/
def takeUpToLast (d : Char) : List Char → List Char
  | [] => []
  | x :: xs => if xs.contains d then x :: takeUpToLast d xs else if x == d then [x] else []

/-- The unique greedy match of `c.*d` (DOTALL): from the first `c` that has
a `d` after it, through the last `d` of the string. -/
def spanFrom (c d : Char) : List Char → Option (List Char)
  | [] => none
  | x :: xs => if x == c && xs.contains d then some (x :: takeUpToLast d xs) else spanFrom c d xs

/-- `re.findall(c.*d, s, re.DOTALL)` (greedy, non-overlapping): at most one
match, as argued above. -/
def findall_span (c d : Char) (s : List Char) : List (List Char) :=
  match spanFrom c d s with
  | some m => [m]
  | none => []

/-- Python `max(ms, key=len)` wrapped for the empty case: the first element
of maximal length (Python's `max` keeps the earlier element on ties). -/
def maxByLen (ms : List (List Char)) : Option (List Char) :=
  ms.foldl (fun acc m =>
    match acc with
    | none => some m
    | some b => if m.length > b.length then some m else some b) none

/-- `extract_json_from_output` (src/app.py lines 161-182): strip, prefer the
longest brace-span match, else the longest bracket-span match, else return
the stripped input. -/
def extract_json_from_output (output : List Char) : List Char :=
  let out := strip output
  match maxByLen (findall_span '\x7b' '\x7d' out) with
  | some m => m
  | none =>
    match maxByLen (findall_span '[' ']' out) with
    | some m => m
    | none => out

/-- The string has a (length ≥ 2) substring starting with `c` and ending
with `d` — the natural-language hypothesis of claim C10. -/
def HasSpan (c d : Char) (s : List Char) : Prop :=
  ∃ p m q, s = p ++ c :: m ++ d :: q

/-! ## SourceDiscoverer regex fallback: URL classification
(src/app.py lines 276-335, `extract_urls_with_regex`)

For each URL matched by `https?://[^\s'"<>]+`, the loop body cleans trailing
punctuation, drops URLs containing a skip pattern, then classifies.  The
claims are about this per-URL classification, modelled by `classify_url`. -/

/-- Outcome of the per-URL branch of `extract_urls_with_regex`: appended to
`database_files` with a format string, appended to `scrape_urls`, or dropped. -/
inductive UrlClass where
  | dbfile (fm : List Char)
  | scrape
  | skipped
deriving DecidableEq

/-- The `skip_patterns` list (src/app.py lines 290-293). -/
def url_skip_patterns : List (List Char) :=
  ["example.com".toList, "documentation".toList, "github.com".toList, "docs.".toList,
   "help.".toList, "/docs/".toList, "/help/".toList, "/guide/".toList, "/tutorial/".toList]

/-- `re.sub(r'[.,;)]+$', '', url)`: strip the maximal trailing run of
`.`, `,`, `;`, `)` characters (src/app.py line 287). -/
def clean_url (u : List Char) : List Char :=
  (u.reverse.dropWhile (fun c => c == '.' || c == ',' || c == ';' || c == ')')).reverse

/-- The extension list checked by substring containment (src/app.py line 299). -/
def data_exts : List (List Char) := [".parquet".toList, ".csv".toList, ".json".toList]

/-- The `format_type` chain (src/app.py line 300): note it tests containment
on the original-case cleaned URL, not the lowercased one. -/
def format_of (c : List Char) : List Char :=
  if containsSub ".parquet".toList c then "parquet".toList
  else if containsSub ".csv".toList c then "csv".toList
  else "json".toList

/-- The per-URL classification of the regex fallback
(src/app.py lines 285-310, loop body). -/
def classify_url (url : List Char) : UrlClass :=
  let c := clean_url url
  if url_skip_patterns.any (fun p => containsSub p (toLowerL c)) then UrlClass.skipped
  else if data_exts.any (fun e => containsSub e (toLowerL c)) then UrlClass.dbfile (format_of c)
  else if containsSub "ecourts.gov.in".toList (toLowerL c) then UrlClass.skipped
  else UrlClass.scrape

/-- Modelled from the claim's words, for comparison with `classify_url`:
classification by trailing extension — a surviving URL ending in
`.csv`/`.parquet`/`.json` becomes a database file with the corresponding
format, every other surviving URL becomes a scrape entry. -/
def classify_url_spec (url : List Char) : UrlClass :=
  let c := clean_url url
  if url_skip_patterns.any (fun p => containsSub p (toLowerL c)) then UrlClass.skipped
  else if ".csv".toList.isSuffixOf c then UrlClass.dbfile ("csv".toList)
  else if ".parquet".toList.isSuffixOf c then UrlClass.dbfile ("parquet".toList)
  else if ".json".toList.isSuffixOf c then UrlClass.dbfile ("json".toList)
  else UrlClass.scrape

/-- A URL that survives the denylist, contains `.csv`, but does not end in
any data extension (a query string follows). -/
def c6_url : List Char := "https://data.org/file.csv?x=1".toList

/-! ## Scraper loop naming (src/app.py lines 337-378, `scrape_all_urls`)

The web scraper and the emptiness of its result are external effects,
modelled as oracles: `ext i` is the outcome of `sourcer.extract_data` for the
URL at position `i` (`Except.error` = the exception branch), and `isEmptyF`
models `df.empty`.  Everything computed from those answers — in particular
the position-derived file name — is translated from the source. -/

/-- One element of the returned `scraped_data` list (the dict built at
src/app.py lines 362-369; `shape`/`columns`/`sample_data` live inside the
abstract `frame`). -/
structure ScrapedEntry (Frame : Type) where
  filename : List Char
  source_url : List Char
  frame : Frame

/-- `f"data{i+1}.csv" if i > 0 else "data.csv"` (src/app.py line 359). -/
def data_filename (i : Nat) : List Char :=
  if i > 0 then "data".toList ++ (Nat.repr (i + 1)).toList ++ ".csv".toList
  else "data.csv".toList

/-- The loop body for position `i`: exception or empty frame produce no
entry, otherwise an entry named by position (src/app.py lines 343-376). -/
def scrape_entry_of {Frame : Type} (ext : Nat → Except Unit Frame) (isEmptyF : Frame → Bool)
    (i : Nat) (u : List Char) : Option (ScrapedEntry Frame) :=
  match ext i with
  | Except.error _ => none
  | Except.ok df => if isEmptyF df then none else some ⟨data_filename i, u, df⟩

/-- The `for i, url in enumerate(urls)` loop of `scrape_all_urls`. -/
def scrapeAux {Frame : Type} (ext : Nat → Except Unit Frame) (isEmptyF : Frame → Bool) :
    Nat → List (List Char) → List (ScrapedEntry Frame)
  | _, [] => []
  | i, u :: rest =>
    match scrape_entry_of ext isEmptyF i u with
    | some e => e :: scrapeAux ext isEmptyF (i + 1) rest
    | none => scrapeAux ext isEmptyF (i + 1) rest

/-- `scrape_all_urls` (src/app.py lines 337-378). -/
def scrape_all_urls {Frame : Type} (ext : Nat → Except Unit Frame) (isEmptyF : Frame → Bool)
    (urls : List (List Char)) : List (ScrapedEntry Frame) :=
  scrapeAux ext isEmptyF 0 urls

/-! ## SchemaProbe: `get_database_schemas` (src/app.py lines 382-445)

The DuckDB engine is an external effect: `probe i` is the combined outcome of
the `DESCRIBE` and 5-row sample queries for item `i` (`Except.error` models
any exception raised inside the per-item `try`, including extension, engine
and network failures; the columns and sample of a successful probe are the
payload).  Everything else — the skip conditions, the format dispatch, the
entry construction — is translated from the source.  The per-item `try ...
except: print(...)` is modelled by `probe_one` returning `none`, which is why
`get_database_schemas` is a total function: no failure escapes it. -/

/-- One element of the `database_files` input list (url, format and optional
description keys of the dict). -/
structure DbFileRef where
  url : List Char
  format : List Char
  description : Option (List Char)

/-- Payload of a successful probe: the `DESCRIBE` result and the sample. -/
structure ProbedSchema where
  columns : List (List Char)
  column_types : List (List Char × List Char)
  sample_rows : List (List Char)

/-- One element of the returned `database_info` list. -/
structure DbEntry where
  filename : List Char
  source_url : List Char
  format : List Char
  columns : List (List Char)
  column_types : List (List Char × List Char)
  sample_rows : List (List Char)
  description : List Char
  total_columns : Nat

/-- `f"database_{i+1}"` (src/app.py line 429). -/
def db_filename (i : Nat) : List Char := "database_".toList ++ (Nat.repr (i + 1)).toList

/-- The format dispatch chain (src/app.py lines 405-421): csv, then parquet,
then json, each by substring containment in `format` or a url suffix test;
anything else is skipped with a warning. -/
def dispatch_ok (f : DbFileRef) : Bool :=
  (containsSub "csv".toList f.format || ".csv".toList.isSuffixOf f.url) ||
  (containsSub "parquet".toList f.format || ".parquet".toList.isSuffixOf f.url) ||
  (containsSub "json".toList f.format || ".json".toList.isSuffixOf f.url)

/-- The loop body for item `i` of `get_database_schemas`: skip on empty or
hard-excluded url, skip unsupported formats, omit the item when the engine
probe raises, otherwise build the entry (src/app.py lines 393-442). -/
def probe_one (probe : Nat → Except Unit ProbedSchema) (i : Nat) (f : DbFileRef) :
    Option DbEntry :=
  if f.url.isEmpty || containsSub "s3://indian-high-court-judgments".toList f.url then none
  else if dispatch_ok f then
    match probe i with
    | Except.error _ => none
    | Except.ok p =>
      some ⟨db_filename i, f.url, f.format, p.columns, p.column_types, p.sample_rows,
            (match f.description with
             | some d => d
             | none => "Database file (".toList ++ f.format ++ ")".toList),
            p.columns.length⟩
  else none

/-- The `for i, db_file in enumerate(database_files)` loop. -/
def gdsAux (probe : Nat → Except Unit ProbedSchema) : Nat → List DbFileRef → List DbEntry
  | _, [] => []
  | i, f :: fs =>
    match probe_one probe i f with
    | some e => e :: gdsAux probe (i + 1) fs
    | none => gdsAux probe (i + 1) fs

/-- `get_database_schemas` (src/app.py lines 382-445). -/
def get_database_schemas (probe : Nat → Except Unit ProbedSchema) (files : List DbFileRef) :
    List DbEntry :=
  gdsAux probe 0 files

/-! ## AccessSanitizer (src/app.py lines 670-729)

The sanitizer scans the generated code with five patterns of the shape
`LITERAL['"]([^'"]+)['"]` via `re.finditer`, and edits `_code` in place.  Two
Python facts shape the model:

* each pattern's `re.finditer(patt, _code)` is evaluated on the string
  `_code` refers to when the inner loop starts, so within one pattern the
  matches (and their `m.start()` offsets) come from that snapshot even while
  `_code` is being reassigned — `sanitizePattern` folds `applyMatch` over the
  snapshot's matches;
* `[^'"]+` is a greedy nonempty run of non-quote characters, so a match is
  the literal, either quote, a maximal nonempty non-quote run, and either
  quote again (the closing quote need not equal the opening one);
  `m.group(0)` includes the closing quote, and scanning resumes after it. -/

/-- The character class `['"]`. -/
def isQuote (c : Char) : Bool := c == '\'' || c == '"'

/-- A regex match: absolute start offset in the scanned string, `m.group(0)`,
and `m.group(1)` (the path). -/
structure SMatch where
  start : Nat
  g0 : List Char
  path : List Char

/-- Try to match `pre['"]([^'"]+)['"]` at the head of `s`; returns
`(group0, group1)` on success. -/
def tryMatchAt (pre : List Char) (s : List Char) : Option (List Char × List Char) :=
  if pre.isPrefixOf s then
    match s.drop pre.length with
    | [] => none
    | q :: rest =>
      if isQuote q then
        let path := rest.takeWhile (fun c => !(isQuote c))
        if path.isEmpty then none
        else
          match rest.drop path.length with
          | [] => none
          | c2 :: _ => if isQuote c2 then some (pre ++ q :: (path ++ [c2]), path) else none
      else none
  else none

/-- Left-to-right non-overlapping scan of `re.finditer` for one pattern;
on a match, scanning resumes right after `m.group(0)`.  The fuel argument
(`s.length` at the top call) only bounds the recursion; every step consumes
at least one character, so it never runs out before the scan ends. -/
def finditerAux (pre : List Char) : Nat → List Char → Nat → List SMatch
  | 0, _, _ => []
  | _, [], _ => []
  | fuel + 1, s@(_ :: rest), pos =>
    match tryMatchAt pre s with
    | some (g0, path) => ⟨pos, g0, path⟩ :: finditerAux pre fuel (s.drop g0.length) (pos + g0.length)
    | none => finditerAux pre fuel rest (pos + 1)

/-- `re.finditer(LITERAL['"]([^'"]+)['"], s)` as a list of matches. -/
def finditer (pre : List Char) (s : List Char) : List SMatch :=
  finditerAux pre s.length s 0

/-- `_code.rfind('\n', 0, start) + 1` (src/app.py line 691). -/
def line_start_of (cur : List Char) (start : Nat) : Nat :=
  match rfindCharBefore '\n' cur start with
  | some i => i + 1
  | none => 0

/-- `_code.find('\n', start)`, with -1 replaced by `len(_code)`
(src/app.py lines 692-694). -/
def line_end_of (cur : List Char) (start : Nat) : Nat :=
  match findCharFrom '\n' cur start with
  | some i => i
  | none => cur.length

/-- `offending_line = _code[line_start:line_end]` (src/app.py line 695). -/
def offending_line_of (cur : List Char) (start : Nat) : List Char :=
  slice cur (line_start_of cur start) (line_end_of cur start)

/-- `eq_pos != -1 and eq_pos < patt_pos` where `eq_pos = line.find('=')` and
`patt_pos = line.find(m.group(0))` (src/app.py lines 697-699); when either
find fails (-1) the Python comparison is false. -/
def is_assignment (line : List Char) (g0 : List Char) : Bool :=
  match line.findIdx? (fun c => c == '='), findSub? g0 line with
  | some e, some p => decide (e < p)
  | _, _ => false

/-- `len(offending_line) - len(offending_line.lstrip())` (src/app.py
lines 705, 721). -/
def leading_ws_count (line : List Char) : Nat := line.length - (line.dropWhile isWs).length

/-- `re.sub(r"(['\"])(path)\1", r"\1\1", line, count=1)`: blank the first
occurrence of the quoted path, requiring the SAME quote character on both
sides (the backreference), and keep the quote pair (src/app.py
lines 714-719). -/
def resubQuoted (path : List Char) : List Char → List Char
  | [] => []
  | c :: rest =>
    if isQuote c && path.isPrefixOf rest then
      match rest.drop path.length with
      | c2 :: rr => if c2 == c then c :: c :: rr else c :: resubQuoted path rest
      | [] => c :: resubQuoted path rest
    else c :: resubQuoted path rest

/-- One iteration of the inner `for m in re.finditer(...)` loop (src/app.py
lines 684-723): the match `m` carries offsets into the pattern's snapshot,
while the edit applies to the current `cur`. -/
def applyMatch (allowed : List (List Char)) (ptype : String) (cur : List Char) (m : SMatch) :
    List Char :=
  if allowed.contains m.path || allowed.contains (basename m.path) then cur
  else
    let ls := line_start_of cur m.start
    let le := line_end_of cur m.start
    let line := offending_line_of cur m.start
    if is_assignment line m.g0 then
      match line.findIdx? (fun c => c == '=') with
      | some e =>
        cur.take ls ++ List.replicate (leading_ws_count line) ' ' ++ line.take (e + 1) ++
          (' ' :: '\'' :: '\'' :: []) ++ cur.drop le
      | none => cur
    else if ptype == "parquet" then cur
    else
      cur.take ls ++ List.replicate (leading_ws_count line) ' ' ++
        ((resubQuoted m.path line).dropWhile isWs) ++ cur.drop le

/-- The five `(pattern, ptype)` pairs (src/app.py lines 676-682). -/
def sanitize_patterns : List (List Char × String) :=
  [("pd.read_csv(".toList, "csv"), ("pd.read_parquet(".toList, "parquet"),
   ("read_csv_auto(".toList, "csv"), ("read_parquet(".toList, "parquet"),
   ("open(".toList, "open")]

/-- Process one pattern: snapshot the matches, then fold the edits. -/
def sanitizePattern (allowed : List (List Char)) (pre : List Char) (ptype : String)
    (code : List Char) : List Char :=
  (finditer pre code).foldl (applyMatch allowed ptype) code

/-- The whole sanitization pass (src/app.py lines 670-729). -/
def sanitize (allowed : List (List Char)) (code : List Char) : List Char :=
  sanitize_patterns.foldl (fun c pt => sanitizePattern allowed pt.1 pt.2 c) code

/-- A single-quote character, used to build concrete program texts. -/
def sq : Char := '\''

/-- Claim C1's failing input (valid Python):
```
a = pd.read_csv('bbbbbbbbbbbbbbbbbbbbbbbbbb.csv')
print(1)
pd.read_csv('bad.csv')
print(2)
```
Blanking the first (assignment) line shortens the text; the second match's
stale `m.start()` then lands on `print(2)`, so `'bad.csv'` is never blanked. -/
def c1_input : List Char :=
  "a = pd.read_csv(".toList ++ [sq] ++ "bbbbbbbbbbbbbbbbbbbbbbbbbb.csv".toList ++ [sq] ++
  ")\nprint(1)\npd.read_csv(".toList ++ [sq] ++ "bad.csv".toList ++ [sq] ++
  ")\nprint(2)".toList

/-- What the sanitizer actually produces on `c1_input` with an empty
allow-list: the first read is blanked, the second survives verbatim. -/
def c1_output : List Char :=
  "a = ".toList ++ [sq, sq] ++
  "\nprint(1)\npd.read_csv(".toList ++ [sq] ++ "bad.csv".toList ++ [sq] ++
  ")\nprint(2)".toList

/-- Claim C2's input: a Parquet read on an assignment line, path outside the
allow-list. -/
def c2_input : List Char :=
  "x = pd.read_parquet(".toList ++ [sq] ++ "s3://secret/data.parquet".toList ++ [sq] ++
  ")".toList

/-- What the sanitizer produces on `c2_input` with an empty allow-list. -/
def c2_blanked : List Char := "x = ".toList ++ [sq, sq]

/-- Concrete non-assignment Parquet line for the C2 witness. -/
def c2w_cur : List Char :=
  "pd.read_parquet(".toList ++ [sq] ++ "x.parquet".toList ++ [sq] ++ ")".toList

/-- Its `m.group(0)`. -/
def c2w_g0 : List Char :=
  "pd.read_parquet(".toList ++ [sq] ++ "x.parquet".toList ++ [sq]

/-! ## Synthesis resolution and the repair loop
(src/app.py lines 641-960, tail of `aianalyst`)

The model gateway and the subprocess executor are external effects:

* the initial synthesis response is a `HorizonResponse` whose two optional
  fields model the presence of the `candidates` / `choices` keys with their
  text payloads;
* `exec prog n` is the net outcome of attempt `n` on the (initially
  sanitized) program: `some answer` when the run exits 0, the extracted
  stdout passes the shape check and `json.loads` succeeds (the program text
  for `n ≥ 1` is whatever the fix prompt produced — the oracle absorbs that,
  along with the one inline dependency self-heal and any exception caught by
  the loop's `except` clauses, all of which merely make the outcome `none`).

The control flow around those outcomes — the fatal `raise ValueError` on an
unrecognized response shape (outside any `try`), the bounded
`while fix_attempt < max_fix_attempts` loop, and the final structured error
— is translated from the source. -/

structure HorizonResponse where
  candidates : Option (List Char)
  choices : Option (List Char)

/-- `if "candidates" in horizon_response ... elif "choices" ... else raise
ValueError(f"Unexpected Horizon response format: ...")` (src/app.py
lines 644-649). -/
def resolve_horizon (r : HorizonResponse) : Except (List Char) (List Char) :=
  match r.candidates with
  | some t => Except.ok t
  | none =>
    match r.choices with
    | some t => Except.ok t
    | none => Except.error ("Unexpected Horizon response format".toList)

/-- `raw_code.strip()` then the backtick-fence removal (src/app.py
lines 651-655). -/
def strip_code (raw : List Char) : List Char :=
  let r := strip raw
  if containsSub "```".toList r then replaceAll "```".toList (replaceAll "```python".toList r)
  else r

/-- What the endpoint hands back (or raises): the parsed answer, the
structured exhaustion object `{"error": ..., "time": ...}`, or the
uncaught `ValueError` propagating out of the request. -/
inductive PipeResult where
  | answer (j : List Char)
  | failure (msg : List Char) (elapsed : Nat)
  | fatal (msg : List Char)
deriving DecidableEq

def max_fix_attempts : Nat := 3

/-- Body of `while fix_attempt < max_fix_attempts: fix_attempt += 1; ...`
(src/app.py lines 786-957), recursing on the quantity `max_fix_attempts -
fix_attempt` (the loop condition `fix_attempt < max_fix_attempts` holds
exactly when it is positive): returns the final counter value and the
successful answer if a cycle returned one. -/
def fixLoopFuel (exec : Nat → Option (List Char)) : Nat → Nat → Nat × Option (List Char)
  | fix_attempt, 0 => (fix_attempt, none)
  | fix_attempt, n + 1 =>
    match exec (fix_attempt + 1) with
    | some j => (fix_attempt + 1, some j)
    | none => fixLoopFuel exec (fix_attempt + 1) n

/-- The fix loop entered with counter `fix_attempt`. -/
def fixLoop (exec : Nat → Option (List Char)) (fix_attempt : Nat) : Nat × Option (List Char) :=
  fixLoopFuel exec fix_attempt (max_fix_attempts - fix_attempt)

def exhaust_msg : List Char := "Code execution failed after all attempts".toList

/-- The initial attempt followed by the fix loop and the exhaustion return
(src/app.py lines 731-960). -/
def run_attempts (exec : Nat → Option (List Char)) (elapsed : Nat) : PipeResult :=
  match exec 0 with
  | some j => PipeResult.answer j
  | none =>
    match (fixLoop exec 0).2 with
    | some j => PipeResult.answer j
    | none => PipeResult.failure exhaust_msg elapsed

/-- The tail of `aianalyst` from synthesis-response resolution onwards:
resolve the response (an unrecognized shape raises before anything else),
clean and sanitize the program once, then run the attempt sequence. -/
def aianalyst_run (resp : HorizonResponse) (allowed : List (List Char))
    (exec : List Char → Nat → Option (List Char)) (elapsed : Nat) : PipeResult :=
  match resolve_horizon resp with
  | Except.error e => PipeResult.fatal e
  | Except.ok raw => run_attempts (exec (sanitize allowed (strip_code raw))) elapsed

/-- Claim C5's input `noise{"a":1}moretext{"a":1,"b":2}noise`. -/
def c5_input : List Char :=
  "noise\x7b\"a\":1\x7dmoretext\x7b\"a\":1,\"b\":2\x7dnoise".toList

/-- The span the claim asserts is returned: `{"a":1,"b":2}`. -/
def c5_claimed : List Char := "\x7b\"a\":1,\"b\":2\x7d".toList

/-- What the greedy regex actually yields: `{"a":1}moretext{"a":1,"b":2}`. -/
def c5_actual : List Char := "\x7b\"a\":1\x7dmoretext\x7b\"a\":1,\"b\":2\x7d".toList

end DataAgent

namespace DataAgent

/-! ## Theorems -/

theorem contains_append_eq (a : Char) (l1 l2 : List Char) :
    (l1 ++ l2).contains a = (l1.contains a || l2.contains a) := by
  induction l1 with
  | nil => rfl
  | cons x xs ih => simp only [List.cons_append, List.contains_cons, ih, Bool.or_assoc]

theorem hasSpanB_append_left (c d : Char) (pre s : List Char) (h : hasSpanB c d s = true) :
    hasSpanB c d (pre ++ s) = true := by
  induction pre with
  | nil => exact h
  | cons x xs ih =>
    simp only [List.cons_append, hasSpanB, List.append_eq, Bool.or_eq_true]
    exact Or.inr (by simpa only [List.append_eq] using ih)

theorem hasSpanB_append_right (c d : Char) (s suf : List Char) (h : hasSpanB c d s = true) :
    hasSpanB c d (s ++ suf) = true := by
  induction s with
  | nil => simp [hasSpanB] at h
  | cons x xs ih =>
    simp only [hasSpanB, Bool.or_eq_true] at h
    simp only [List.cons_append, hasSpanB, List.append_eq, Bool.or_eq_true, contains_append_eq]
    rcases h with h | h
    · simp only [Bool.and_eq_true] at h
      exact Or.inl (by simp [h.1, List.elem_iff.mp h.2])
    · exact Or.inr (by simpa only [List.append_eq] using ih h)

theorem rstrip_decomp (t : List Char) : t = rstrip t ++ (t.reverse.takeWhile isWs).reverse := by
  conv_lhs => rw [← List.reverse_reverse t, ← List.takeWhile_append_dropWhile isWs t.reverse]
  rw [List.reverse_append]
  rfl

theorem strip_decomp (s : List Char) : ∃ pre suf, s = pre ++ strip s ++ suf := by
  refine ⟨s.takeWhile isWs, ((s.dropWhile isWs).reverse.takeWhile isWs).reverse, ?_⟩
  conv_lhs => rw [← List.takeWhile_append_dropWhile isWs s, rstrip_decomp (s.dropWhile isWs)]
  rw [← List.append_assoc]
  rfl

theorem hasSpanB_strip (c d : Char) (s : List Char) (h : hasSpanB c d (strip s) = true) :
    hasSpanB c d s = true := by
  obtain ⟨pre, suf, hs⟩ := strip_decomp s
  rw [hs]
  exact hasSpanB_append_right _ _ _ _ (hasSpanB_append_left _ _ _ _ h)

theorem spanFrom_eq_none_iff (c d : Char) (s : List Char) :
    spanFrom c d s = none ↔ hasSpanB c d s = false := by
  induction s with
  | nil => simp [spanFrom, hasSpanB]
  | cons x xs ih =>
    by_cases h1 : x = c
    · by_cases h2 : d ∈ xs
      · simp [spanFrom, hasSpanB, h1, h2]
      · simp [spanFrom, hasSpanB, h1, h2, ih]
    · simp [spanFrom, hasSpanB, h1, ih]

theorem hasSpanB_iff (c d : Char) (s : List Char) : hasSpanB c d s = true ↔ HasSpan c d s := by
  constructor
  · intro h
    induction s with
    | nil => simp [hasSpanB] at h
    | cons x xs ih =>
      simp only [hasSpanB, Bool.or_eq_true, Bool.and_eq_true] at h
      rcases h with ⟨hx, hd⟩ | h
      · have hxc : x = c := by simpa using hx
        obtain ⟨m, q, hmq⟩ := List.append_of_mem (List.elem_iff.mp hd)
        exact ⟨[], m, q, by simp [hxc, hmq]⟩
      · obtain ⟨p, m, q, hp⟩ := ih h
        exact ⟨x :: p, m, q, by simp [hp]⟩
  · rintro ⟨p, m, q, rfl⟩
    have hc : hasSpanB c d (c :: (m ++ d :: q)) = true := by
      simp only [hasSpanB, Bool.or_eq_true, Bool.and_eq_true]
      exact Or.inl ⟨by simp, List.elem_iff.mpr (by simp)⟩
    simpa only [List.cons_append, List.append_assoc] using hasSpanB_append_left c d p _ hc

/-- Claim C5 (counterexample): on `noise{"a":1}moretext{"a":1,"b":2}noise`,
`extract_json_from_output` does not return the longer of the two brace spans
`{"a":1,"b":2}`; the greedy regex produces a single span covering both. -/
theorem c5_extraction_not_longest_span :
    extract_json_from_output c5_input ≠ c5_claimed := by decide

/-- Claim C5 (amended): on that input the function returns the single greedy
match running from the first `{` to the last `}`, namely
`{"a":1}moretext{"a":1,"b":2}`. -/
theorem c5_extraction_greedy_single_span :
    extract_json_from_output c5_input = c5_actual := by decide

/-- Claim C10: for every input string with no substring that starts with `{`
and ends with `}` and none that starts with `[` and ends with `]`,
`extract_json_from_output` returns the input stripped of leading and trailing
whitespace — it never fails and never returns a sentinel. -/
theorem c10_extraction_fallback_strip (s : List Char)
    (h1 : ¬ HasSpan '\x7b' '\x7d' s) (h2 : ¬ HasSpan '[' ']' s) :
    extract_json_from_output s = strip s := by
  have b1 : hasSpanB '\x7b' '\x7d' s = false := by
    cases hb : hasSpanB '\x7b' '\x7d' s
    · rfl
    · exact absurd ((hasSpanB_iff _ _ _).mp hb) h1
  have b2 : hasSpanB '[' ']' s = false := by
    cases hb : hasSpanB '[' ']' s
    · rfl
    · exact absurd ((hasSpanB_iff _ _ _).mp hb) h2
  have s1 : spanFrom '\x7b' '\x7d' (strip s) = none := by
    apply (spanFrom_eq_none_iff _ _ _).mpr
    cases hb : hasSpanB '\x7b' '\x7d' (strip s)
    · rfl
    · rw [hasSpanB_strip _ _ _ hb] at b1; exact absurd b1 (by simp)
  have s2 : spanFrom '[' ']' (strip s) = none := by
    apply (spanFrom_eq_none_iff _ _ _).mpr
    cases hb : hasSpanB '[' ']' (strip s)
    · rfl
    · rw [hasSpanB_strip _ _ _ hb] at b2; exact absurd b2 (by simp)
  simp [extract_json_from_output, findall_span, s1, s2, maxByLen]

/-- Witness for C10 at the concrete input `"  hello  "`. -/
theorem c10_extraction_fallback_strip_witness :
    extract_json_from_output ("  hello  ".toList) = strip ("  hello  ".toList) :=
  c10_extraction_fallback_strip _
    (fun h => absurd ((hasSpanB_iff _ _ _).mpr h) (by decide))
    (fun h => absurd ((hasSpanB_iff _ _ _).mpr h) (by decide))

/-- Claim C6 (counterexample): the regex fallback classifies
`https://data.org/file.csv?x=1` — which survives the denylist but does not
END in a data extension — as a `database_files` entry (format `csv`),
because the code tests substring containment; trailing-extension
classification, as the claim states it, would make it a scrape URL. -/
theorem c6_substring_vs_trailing_extension :
    classify_url c6_url = UrlClass.dbfile ("csv".toList) ∧
    classify_url_spec c6_url = UrlClass.scrape ∧
    classify_url c6_url ≠ classify_url_spec c6_url := by decide

/-- Claim C6 (amended): for every URL surviving the denylist, it becomes a
`database_files` entry iff its lowercased cleaned form CONTAINS one of
`.parquet`/`.csv`/`.json` (the format then chosen by case-sensitive
containment, `format_of`); otherwise it becomes a `scrape_urls` entry iff it
does not contain the reference domain `ecourts.gov.in`. -/
theorem c6_classification_by_containment (url : List Char)
    (hs : url_skip_patterns.any (fun p => containsSub p (toLowerL (clean_url url))) = false) :
    ((∃ fm, classify_url url = UrlClass.dbfile fm) ↔
      data_exts.any (fun e => containsSub e (toLowerL (clean_url url))) = true) ∧
    (data_exts.any (fun e => containsSub e (toLowerL (clean_url url))) = false →
      (classify_url url = UrlClass.scrape ↔
        containsSub "ecourts.gov.in".toList (toLowerL (clean_url url)) = false)) := by
  by_cases he : data_exts.any (fun e => containsSub e (toLowerL (clean_url url))) = true
  · constructor
    · simp [classify_url, hs, he]
    · intro hne; rw [hne] at he; exact absurd he (by simp)
  · have he' : data_exts.any (fun e => containsSub e (toLowerL (clean_url url))) = false := by
      simpa using he
    have hcls : classify_url url =
        (if containsSub "ecourts.gov.in".toList (toLowerL (clean_url url))
         then UrlClass.skipped else UrlClass.scrape) := by
      simp only [classify_url, hs, he', Bool.false_eq_true, if_false]
    by_cases hec : containsSub "ecourts.gov.in".toList (toLowerL (clean_url url)) = true
    · rw [hcls, if_pos hec]
      exact ⟨by simp [he'], fun _ => by simp only [hec]; simp⟩
    · have hec' : containsSub "ecourts.gov.in".toList (toLowerL (clean_url url)) = false := by
        simpa using hec
      rw [hcls, if_neg hec]
      exact ⟨by simp [he'], fun _ => ⟨fun _ => hec', fun _ => rfl⟩⟩

/-- Witness for C6 (amended) at `https://data.org/file.csv?x=1`. -/
theorem c6_classification_by_containment_witness :
    (∃ fm, classify_url c6_url = UrlClass.dbfile fm) ↔
      data_exts.any (fun e => containsSub e (toLowerL (clean_url c6_url))) = true :=
  (c6_classification_by_containment c6_url (by decide)).1

theorem scrapeAux_eq_filterMap {Frame : Type} (ext : Nat → Except Unit Frame)
    (isEmptyF : Frame → Bool) (i : Nat) (urls : List (List Char)) :
    scrapeAux ext isEmptyF i urls =
      (urls.enumFrom i).filterMap (fun p => scrape_entry_of ext isEmptyF p.1 p.2) := by
  induction urls generalizing i with
  | nil => rfl
  | cons u rest ih =>
    simp only [scrapeAux, List.enumFrom, List.filterMap_cons]
    cases h : scrape_entry_of ext isEmptyF i u <;> simp [h, ih]

theorem fixLoop_zero_cases (exec : Nat → Option (List Char)) :
    (∃ j, fixLoop exec 0 = (1, some j)) ∨ (∃ j, fixLoop exec 0 = (2, some j)) ∨
    (∃ j, fixLoop exec 0 = (3, some j)) ∨ fixLoop exec 0 = (3, none) := by
  have e0 : fixLoop exec 0 =
      (match exec 1 with
       | some j => (1, some j)
       | none => fixLoopFuel exec 1 2) := rfl
  have e1 : fixLoopFuel exec 1 2 =
      (match exec 2 with
       | some j => (2, some j)
       | none => fixLoopFuel exec 2 1) := rfl
  have e2 : fixLoopFuel exec 2 1 =
      (match exec 3 with
       | some j => (3, some j)
       | none => fixLoopFuel exec 3 0) := rfl
  have e3 : fixLoopFuel exec 3 0 = (3, none) := rfl
  cases h1 : exec 1 with
  | some j => exact Or.inl ⟨j, by rw [e0, h1]⟩
  | none =>
    cases h2 : exec 2 with
    | some j => exact Or.inr (Or.inl ⟨j, by rw [e0, h1, e1, h2]⟩)
    | none =>
      cases h3 : exec 3 with
      | some j => exact Or.inr (Or.inr (Or.inl ⟨j, by rw [e0, h1, e1, h2, e2, h3]⟩))
      | none => exact Or.inr (Or.inr (Or.inr (by rw [e0, h1, e1, h2, e2, h3, e3])))

/-- Claim C3: the repair loop performs at most 3 post-initial fix cycles —
the final counter value is at most 3, on persistent failure it is exactly 3
(the fixed bound, so `fix_attempt` took the values 1, 2, 3), and the
post-synthesis pipeline always terminates in either a parsed answer or the
structured exhaustion error. -/
theorem c3_repair_loop_bounded (exec : Nat → Option (List Char)) (elapsed : Nat) :
    (fixLoop exec 0).1 ≤ 3 ∧
    ((fixLoop exec 0).2 = none → (fixLoop exec 0).1 = 3) ∧
    ((∃ j, run_attempts exec elapsed = PipeResult.answer j) ∨
      run_attempts exec elapsed = PipeResult.failure exhaust_msg elapsed) := by
  have hcases := fixLoop_zero_cases exec
  refine ⟨?_, ?_, ?_⟩
  · rcases hcases with ⟨j, h⟩ | ⟨j, h⟩ | ⟨j, h⟩ | h <;> simp [h]
  · rcases hcases with ⟨j, h⟩ | ⟨j, h⟩ | ⟨j, h⟩ | h <;> simp [h]
  · unfold run_attempts
    cases h0 : exec 0 with
    | some j => exact Or.inl ⟨j, rfl⟩
    | none =>
      rcases hcases with ⟨j, h⟩ | ⟨j, h⟩ | ⟨j, h⟩ | h <;> rw [h] <;>
        first
        | exact Or.inl ⟨_, rfl⟩
        | exact Or.inr rfl

/-- Witness for C3 with an oracle that always fails. -/
theorem c3_repair_loop_bounded_witness :
    (fixLoop (fun _ => none) 0).1 ≤ 3 ∧ (fixLoop (fun _ => none) 0).1 = 3 :=
  ⟨(c3_repair_loop_bounded (fun _ => none) 0).1,
   (c3_repair_loop_bounded (fun _ => none) 0).2.1 rfl⟩

/-- Claim C4: when the initial attempt and all 3 repair attempts fail, the
pipeline returns exactly `{"error": "Code execution failed after all
attempts", "time": elapsed}` — the `PipeResult.failure` value carries
precisely the fixed message and the elapsed time, and no other channel
(in particular no exception or stack trace) reaches the caller. -/
theorem c4_exhaustion_structured_error (resp : HorizonResponse) (allowed : List (List Char))
    (exec : List Char → Nat → Option (List Char)) (elapsed : Nat) (raw : List Char)
    (hres : resolve_horizon resp = Except.ok raw)
    (hfail : ∀ n, exec (sanitize allowed (strip_code raw)) n = none) :
    aianalyst_run resp allowed exec elapsed = PipeResult.failure exhaust_msg elapsed := by
  have hloop : fixLoop (exec (sanitize allowed (strip_code raw))) 0 = (3, none) := by
    have e0 : fixLoop (exec (sanitize allowed (strip_code raw))) 0 =
        (match exec (sanitize allowed (strip_code raw)) 1 with
         | some j => (1, some j)
         | none => fixLoopFuel (exec (sanitize allowed (strip_code raw))) 1 2) := rfl
    have e1 : fixLoopFuel (exec (sanitize allowed (strip_code raw))) 1 2 =
        (match exec (sanitize allowed (strip_code raw)) 2 with
         | some j => (2, some j)
         | none => fixLoopFuel (exec (sanitize allowed (strip_code raw))) 2 1) := rfl
    have e2 : fixLoopFuel (exec (sanitize allowed (strip_code raw))) 2 1 =
        (match exec (sanitize allowed (strip_code raw)) 3 with
         | some j => (3, some j)
         | none => fixLoopFuel (exec (sanitize allowed (strip_code raw))) 3 0) := rfl
    rw [e0, hfail 1, e1, hfail 2, e2, hfail 3]
    rfl
  unfold aianalyst_run
  rw [hres]
  show run_attempts (exec (sanitize allowed (strip_code raw))) elapsed = _
  unfold run_attempts
  rw [hfail 0, hloop]

/-- Witness for C4: a `candidates`-shaped response and an always-failing
executor. -/
theorem c4_exhaustion_structured_error_witness :
    aianalyst_run ⟨some ("print(1)".toList), none⟩ [] (fun _ _ => none) 7 =
      PipeResult.failure exhaust_msg 7 :=
  c4_exhaustion_structured_error ⟨some ("print(1)".toList), none⟩ [] (fun _ _ => none) 7
    ("print(1)".toList) rfl (fun _ => rfl)

/-- Claim C9: when the initial synthesis response carries neither a
`candidates` nor a `choices` key, the pipeline raises immediately: the
result is the fatal `ValueError` for every allow-list and every executor
oracle — in particular it does not depend on the executor, so no
sanitization result is ever executed and no repair attempt happens. -/
theorem c9_protocol_error_fatal (resp : HorizonResponse) (allowed : List (List Char))
    (exec : List Char → Nat → Option (List Char)) (elapsed : Nat)
    (h1 : resp.candidates = none) (h2 : resp.choices = none) :
    aianalyst_run resp allowed exec elapsed =
      PipeResult.fatal ("Unexpected Horizon response format".toList) := by
  simp [aianalyst_run, resolve_horizon, h1, h2]

/-- Witness for C9 at the empty response. -/
theorem c9_protocol_error_fatal_witness :
    aianalyst_run ⟨none, none⟩ [] (fun _ _ => none) 0 =
      PipeResult.fatal ("Unexpected Horizon response format".toList) :=
  c9_protocol_error_fatal ⟨none, none⟩ [] (fun _ _ => none) 0 rfl rfl

/-- Claim C1 (code bug): on `c1_input` (valid Python, two disallowed
`pd.read_csv` literal paths, empty allow-list) the sanitization pass blanks
the first read but leaves `pd.read_csv('bad.csv')` untouched: the second
match's `m.start()` was computed on the pre-edit snapshot, and after the
first edit shortens the text it selects the `print(2)` line, where the
substitution finds nothing to replace.  The surviving output still contains
a CSV-read whose literal path `bad.csv` is neither in the allow-list nor
blanked, contradicting the stated invariant. -/
theorem c1_sanitizer_misses_disallowed_read :
    sanitize [] c1_input = c1_output ∧
    (finditer ("pd.read_csv(".toList) (sanitize [] c1_input)).map SMatch.path =
      ["bad.csv".toList] := by decide

/-- Claim C2 (counterexample): a Parquet read with a disallowed path on an
assignment line is NOT left untouched — the right-hand side is blanked,
because the `ptype == 'parquet'` exemption sits only in the non-assignment
branch. -/
theorem c2_parquet_assignment_blanked :
    sanitize [] c2_input = c2_blanked ∧ sanitize [] c2_input ≠ c2_input := by decide

/-- Claim C2 (amended): a Parquet-pattern match is left untouched by its
loop iteration exactly when its computed containing line is NOT an
assignment (no `=` before the match text on that line); for every allow-list,
code state and match, the non-assignment Parquet iteration returns the code
unchanged. -/
theorem c2_parquet_nonassignment_untouched (allowed : List (List Char)) (cur : List Char)
    (m : SMatch) (h : is_assignment (offending_line_of cur m.start) m.g0 = false) :
    applyMatch allowed "parquet" cur m = cur := by
  unfold applyMatch
  by_cases hall : (allowed.contains m.path || allowed.contains (basename m.path)) = true
  · rw [if_pos hall]
  · rw [if_neg hall]
    simp [h]

/-- Witness for C2 (amended) on a concrete non-assignment Parquet line. -/
theorem c2_parquet_nonassignment_untouched_witness :
    is_assignment (offending_line_of c2w_cur 0) c2w_g0 = false ∧
    applyMatch [] "parquet" c2w_cur ⟨0, c2w_g0, "x.parquet".toList⟩ = c2w_cur :=
  ⟨by decide,
   c2_parquet_nonassignment_untouched [] c2w_cur ⟨0, c2w_g0, "x.parquet".toList⟩ (by decide)⟩

theorem probe_one_congr (probe probe' : Nat → Except Unit ProbedSchema) (i : Nat)
    (f : DbFileRef) (h : probe' i = probe i) :
    probe_one probe' i f = probe_one probe i f := by
  simp only [probe_one, h]

theorem probe_one_error (probe : Nat → Except Unit ProbedSchema) (i : Nat) (f : DbFileRef)
    (h : probe i = Except.error ()) :
    probe_one probe i f = none := by
  unfold probe_one
  rw [h]
  split
  · rfl
  · split <;> rfl

theorem gdsAux_eq_filterMap (probe : Nat → Except Unit ProbedSchema) (i : Nat)
    (files : List DbFileRef) :
    gdsAux probe i files = (files.enumFrom i).filterMap (fun p => probe_one probe p.1 p.2) := by
  induction files generalizing i with
  | nil => rfl
  | cons f fs ih =>
    simp only [gdsAux, List.enumFrom, List.filterMap_cons]
    cases h : probe_one probe i f <;> simp [h, ih]

/-- Claim C8: probe failures are isolated per item.  The batch result is the
independent per-item `filterMap` of `probe_one` over the enumerated input
(second conjunct), and if the engine oracle is changed so that probing item
`k` fails while all other items answer as before, the only difference in the
output is that item `k`'s entry is omitted (first conjunct); nothing escapes
`get_database_schemas` — every per-item failure path yields `none`. -/
theorem c8_probe_error_isolation (probe probe' : Nat → Except Unit ProbedSchema) (k : Nat)
    (files : List DbFileRef)
    (hagree : ∀ i, i ≠ k → probe' i = probe i) (hfail : probe' k = Except.error ()) :
    get_database_schemas probe' files =
      (files.enum).filterMap (fun p => if p.1 = k then none else probe_one probe p.1 p.2) ∧
    get_database_schemas probe files =
      (files.enum).filterMap (fun p => probe_one probe p.1 p.2) := by
  refine ⟨?_, gdsAux_eq_filterMap probe 0 files⟩
  rw [get_database_schemas, gdsAux_eq_filterMap]
  apply List.filterMap_congr
  intro p _
  by_cases hk : p.1 = k
  · rw [if_pos hk, hk]
    exact probe_one_error probe' k p.2 hfail
  · rw [if_neg hk]
    exact probe_one_congr probe probe' p.1 p.2 (hagree p.1 hk)

/-- Witness for C8: two csv items; probing item 0 fails, item 1 survives. -/
theorem c8_probe_error_isolation_witness :
    get_database_schemas
        (fun i => if i = 0 then Except.error ()
                  else Except.ok ⟨["a".toList], [("a".toList, "BIGINT".toList)], []⟩)
        [⟨"f1.csv".toList, "csv".toList, none⟩, ⟨"f2.csv".toList, "csv".toList, none⟩] =
      ([⟨"f1.csv".toList, "csv".toList, none⟩,
        (⟨"f2.csv".toList, "csv".toList, none⟩ : DbFileRef)].enum).filterMap
        (fun p => if p.1 = 0 then none
                  else probe_one
                    (fun _ => Except.ok ⟨["a".toList], [("a".toList, "BIGINT".toList)], []⟩)
                    p.1 p.2) :=
  (c8_probe_error_isolation
    (fun _ => Except.ok ⟨["a".toList], [("a".toList, "BIGINT".toList)], []⟩)
    (fun i => if i = 0 then Except.error ()
              else Except.ok ⟨["a".toList], [("a".toList, "BIGINT".toList)], []⟩)
    0
    [⟨"f1.csv".toList, "csv".toList, none⟩, ⟨"f2.csv".toList, "csv".toList, none⟩]
    (fun _ hi => if_neg hi) rfl).1

/-- Claim C7: the CSV saved for the URL at zero-based position `i` is named
`data.csv` for `i = 0` and `data{i+1}.csv` for `i > 0`, derived from the
URL's position (each entry is `scrape_entry_of` at its `enum` index, whose
name is `data_filename i`), not from the count of prior successes; in
particular, scraping `[u1, u2, u3]` where `u2` fails yields `data.csv` and
`data3.csv`, with no renumbering to `data2.csv`. -/
theorem c7_sequential_position_naming :
    (∀ (Frame : Type) (ext : Nat → Except Unit Frame) (isEmptyF : Frame → Bool)
        (urls : List (List Char)),
      scrape_all_urls ext isEmptyF urls =
        (urls.enum).filterMap (fun p => scrape_entry_of ext isEmptyF p.1 p.2)) ∧
    (scrape_all_urls (fun i => if i = 1 then Except.error () else Except.ok ())
        (fun _ => false) ["u1".toList, "u2".toList, "u3".toList]).map ScrapedEntry.filename =
      ["data.csv".toList, "data3.csv".toList] := by
  constructor
  · intro Frame ext isEmptyF urls
    exact scrapeAux_eq_filterMap ext isEmptyF 0 urls
  · decide

end DataAgent
